import Mathlib

/-!
Verification of the identity allocator and equivalence engine of
`core/src/id.rs`.  Machine integers (`u64`, `u128`) are modelled as `Nat`
with wrapping made explicit (`% 2^64`) where the source performs a
wrapping `fetch_add`.  Fallible conversions are modelled with `Except`.
-/

namespace IcedId

/-- Internal representation of an `Id` — the enum `Internal` of
`core/src/id.rs`.  `Unique` wraps a u64 sequence number, `Custom` wraps a
u64 sequence number and a name (`Cow<'static, str>` modelled as `String`),
`Set` wraps an ordered list of nested identifiers. -/
inductive Internal where
  | Unique (id : Nat)
  | Custom (id : Nat) (name : String)
  | Set (ids : List Internal)
deriving Repr

mutual

/-- Structural equality: `impl PartialEq for Internal`.  Unique compares by
sequence number, Custom by name only (the sequence number is matched by
`_`), Set element-wise. -/
def peq : Internal → Internal → Bool
  | .Unique l0, .Unique r0 => l0 == r0
  | .Custom _ l1, .Custom _ r1 => l1 == r1
  | .Set l0, .Set r0 => peqList l0 r0
  | _, _ => false

/-- Element-wise structural equality of `Vec<Internal>` (its `PartialEq`). -/
def peqList : List Internal → List Internal → Bool
  | [], [] => true
  | l :: ls, r :: rs => peq l r && peqList ls rs
  | _, _ => false

end

/-- Domain equivalence: `impl IdEq for Internal`.  Note that the member
comparison in the Set-vs-non-Set arms is the source's `l == r`, i.e. the
structural `PartialEq`, not a recursive `IdEq` call; likewise the Set-vs-Set
arm compares the member vectors with `==`. -/
def idEq : Internal → Internal → Bool
  | .Unique l0, .Unique r0 => l0 == r0
  | .Custom l0 l1, .Custom r0 r1 => l0 == r0 || l1 == r1
  | .Unique l0, .Custom r0 _ => l0 == r0
  | .Custom l0 _, .Unique r0 => l0 == r0
  | .Set l0, .Set r0 => peqList l0 r0
  | .Set l0, r => l0.any fun l => peq l r
  | r, .Set l0 => l0.any fun l => peq l r

/-- Whether a value is the `Set` variant (used to state the Set-vs-non-Set
rules of `IdEq`). -/
def isSet : Internal → Bool
  | .Set _ => true
  | _ => false

/-- The data fed to the hasher, as an inert tree: two values receive equal
hashes exactly when their `HashKey`s are equal. -/
inductive HashKey where
  | num (n : Nat)
  | str (s : String)
  | seq (ks : List HashKey)
deriving Repr

mutual

/-- Hashing, `impl Hash for Internal`.  `Unique(id)` hashes `id`; in the `Custom`
arm the source pattern is `Custom(name, _)`, which binds the FIRST
positional field — the u64 sequence number — so `Custom` hashes its
sequence number, not its name; `Set(ids)` hashes the member vector. -/
def hashKey : Internal → HashKey
  | .Unique id => .num id
  | .Custom id _ => .num id
  | .Set ids => .seq (hashKeyList ids)

/-- Hashing of `Vec<Internal>`: each member in order. -/
def hashKeyList : List Internal → List HashKey
  | [] => []
  | x :: xs => hashKey x :: hashKeyList xs

end

/-- The public wrapper `pub struct Id(pub Internal)`. -/
structure Id where
  internal : Internal
deriving Repr

/-- The pair of global atomic counters `NEXT_ID` and `NEXT_WINDOW_ID`.
Both are `u64`, so each holds a value `< 2^64`. -/
structure CounterState where
  nextId : Nat
  nextWindowId : Nat
deriving Repr

/-- Both counters are initialised to 1 (`AtomicU64::new(1)`). -/
def initState : CounterState := ⟨1, 1⟩

/-- Sequence step `Id::next`: `NEXT_ID.fetch_add(1, Relaxed)` — returns the old value and
stores the wrapped successor. -/
def nextSeq (s : CounterState) : Nat × CounterState :=
  (s.nextId, ⟨(s.nextId + 1) % 2 ^ 64, s.nextWindowId⟩)

/-- Counter reset `Id::reset`: `NEXT_ID.store(1, Relaxed)`.  Writes only the general
counter. -/
def reset (s : CounterState) : CounterState :=
  ⟨1, s.nextWindowId⟩

/-- Custom allocation `Id::new(name)`: allocates the next sequence number and wraps it with
the name as a `Custom` identifier. -/
def Id.new (s : CounterState) (name : String) : Id × CounterState :=
  let p := nextSeq s
  (⟨.Custom p.1 name⟩, p.2)

/-- Unique allocation `Id::unique()`: allocates the next sequence number and wraps it as a
`Unique` identifier. -/
def Id.unique (s : CounterState) : Id × CounterState :=
  let p := nextSeq s
  (⟨.Unique p.1⟩, p.2)

/-- Conversion `impl From<u64> for Id`: wraps the given number as `Unique` without
touching the allocator state. -/
def Id.fromU64 (value : Nat) : Id :=
  ⟨.Unique value⟩

/-- The two panics reachable from `impl From<Id> for NonZeroU128`. -/
inductive ConvError where
  | setPanic
  | unwrapPanic
deriving Repr, DecidableEq

/-- Conversion `impl From<Id> for NonZeroU128`: emits the sequence number of a
`Unique` or `Custom`; the `NonZeroU128::try_from(..).unwrap()` panics when
that number is 0 (`unwrapPanic`), and the `Set` arm panics unconditionally
(`setPanic`). -/
def toNonZeroU128 : Id → Except ConvError Nat
  | ⟨.Unique id⟩ => if id = 0 then .error .unwrapPanic else .ok id
  | ⟨.Custom id _⟩ => if id = 0 then .error .unwrapPanic else .ok id
  | ⟨.Set _⟩ => .error .setPanic

/-- Window allocator `window_node_id()`: `u64::MAX as u128 + NEXT_WINDOW_ID.fetch_add(1)`,
computed in `u128` (no overflow there), returning the handle and the
stepped state. -/
def windowNodeId (s : CounterState) : Nat × CounterState :=
  ((2 ^ 64 - 1) + s.nextWindowId, ⟨s.nextId, (s.nextWindowId + 1) % 2 ^ 64⟩)

/-- A general-namespace allocation: either `Id::unique()` or
`Id::new(name)` — both draw from `NEXT_ID`. -/
inductive AllocOp where
  | uniqueOp
  | customOp (name : String)

/-- Run a sequence of general-namespace allocations, collecting the
identifiers produced. -/
def runOps : List AllocOp → CounterState → List Id × CounterState
  | [], s => ([], s)
  | AllocOp.uniqueOp :: ops, s =>
    let p := Id.unique s
    let q := runOps ops p.2
    (p.1 :: q.1, q.2)
  | AllocOp.customOp name :: ops, s =>
    let p := Id.new s name
    let q := runOps ops p.2
    (p.1 :: q.1, q.2)

/-- Call `Id::unique()` `n` times, collecting the results. -/
def uniqueRun : Nat → CounterState → List Id
  | 0, _ => []
  | n + 1, s =>
    let p := Id.unique s
    p.1 :: uniqueRun n p.2

/-- Call `window_node_id()` `n` times, collecting the handles. -/
def windowRun : Nat → CounterState → List Nat
  | 0, _ => []
  | n + 1, s =>
    let p := windowNodeId s
    p.1 :: windowRun n p.2

/-- The `j`-th (0-indexed) sequence number handed out by `NEXT_ID` from a
fresh process (counter starts at 1, wrapping `fetch_add`). -/
def generalSeqAt (j : Nat) : Nat :=
  (1 + j) % 2 ^ 64

/-- The `j`-th (0-indexed) handle returned by `window_node_id()` from a
fresh process. -/
def windowHandleAt (j : Nat) : Nat :=
  (2 ^ 64 - 1) + (1 + j) % 2 ^ 64

mutual

/-- Structural equality (`PartialEq`) is reflexive. -/
theorem peq_refl : ∀ x : Internal, peq x x = true
  | .Unique _ => by simp [peq]
  | .Custom _ _ => by simp [peq]
  | .Set l => by
    simp only [peq]
    exact peqList_refl l

/-- Element-wise structural equality of member vectors is reflexive. -/
theorem peqList_refl : ∀ l : List Internal, peqList l l = true
  | [] => rfl
  | x :: xs => by
    simp only [peqList, Bool.and_eq_true]
    exact ⟨peq_refl x, peqList_refl xs⟩

end

/-- C8: the domain equivalence relation of `IdEq` is reflexive — every
`Internal` value (`Unique`, `Custom`, or `Set`, including nested `Set`s)
is domain-equivalent to itself. -/
theorem idEq_refl (x : Internal) : idEq x x = true := by
  cases x with
  | Unique n => simp [idEq]
  | Custom n s => simp [idEq]
  | Set l =>
    simp only [idEq]
    exact peqList_refl l

/-- C7: under `IdEq`, two `Custom`s are equivalent iff their sequence
numbers match or their names match, and a `Unique` and a `Custom` (either
order) are equivalent iff the `Unique`'s sequence number equals the
`Custom`'s sequence number, regardless of the `Custom`'s name. -/
theorem idEq_custom_unique_rules (l0 r0 : Nat) (l1 r1 : String) :
    (idEq (.Custom l0 l1) (.Custom r0 r1) = true ↔ (l0 = r0 ∨ l1 = r1)) ∧
    (idEq (.Unique l0) (.Custom r0 r1) = true ↔ l0 = r0) ∧
    (idEq (.Custom l0 l1) (.Unique r0) = true ↔ l0 = r0) := by
  simp [idEq]

/-- C1 (failing-input evaluation): `Custom(1, "a")` and `Custom(2, "a")`
are structurally equal under `PartialEq` (which compares names only) yet
feed different data to the hasher, because the `Hash` arm
`Custom(name, _)` binds — and hashes — the u64 sequence number. -/
theorem hash_disagrees_with_structural_eq :
    peq (.Custom 1 "a") (.Custom 2 "a") = true ∧
    hashKey (.Custom 1 "a") ≠ hashKey (.Custom 2 "a") := by
  refine ⟨by decide, fun h => ?_⟩
  simp only [hashKey, HashKey.num.injEq] at h
  omega

/-- C2 (counterexample): allocating `Custom("save-button")` twice from a
fresh state yields two values that are structurally EQUAL (not unequal:
`PartialEq` ignores the sequence numbers) and whose hashes DIFFER (the
hash uses the sequence numbers 1 and 2). -/
theorem new_custom_twice_counterexample :
    peq (Id.new initState "save-button").1.internal
      (Id.new (Id.new initState "save-button").2 "save-button").1.internal
      = true ∧
    hashKey (Id.new initState "save-button").1.internal ≠
      hashKey
        (Id.new (Id.new initState "save-button").2 "save-button").1.internal := by
  refine ⟨by decide, fun h => ?_⟩
  simp only [Id.new, nextSeq, initState, hashKey, HashKey.num.injEq] at h
  omega

/-- C2 (amended): two successive `Id::new(name)` calls produce identifiers
that are structurally equal (`PartialEq` compares `Custom`s by name only),
domain-equivalent via the name match, and have UNEQUAL hashes, because
their sequence numbers differ and the hash uses the sequence number. -/
theorem new_custom_twice_amended (s : CounterState) (name : String)
    (_hs : s.nextId < 2 ^ 64) :
    peq (Id.new s name).1.internal
      (Id.new (Id.new s name).2 name).1.internal = true ∧
    idEq (Id.new s name).1.internal
      (Id.new (Id.new s name).2 name).1.internal = true ∧
    hashKey (Id.new s name).1.internal ≠
      hashKey (Id.new (Id.new s name).2 name).1.internal := by
  refine ⟨by simp [Id.new, nextSeq, peq], by simp [Id.new, nextSeq, idEq],
    fun h => ?_⟩
  simp only [Id.new, nextSeq, hashKey, HashKey.num.injEq] at h
  omega

/-- Witness for the amended C2 at the concrete scenario of the claim. -/
theorem new_custom_twice_amended_witness :
    initState.nextId < 2 ^ 64 ∧
    (peq (Id.new initState "save-button").1.internal
      (Id.new (Id.new initState "save-button").2 "save-button").1.internal
        = true ∧
    idEq (Id.new initState "save-button").1.internal
      (Id.new (Id.new initState "save-button").2 "save-button").1.internal
        = true ∧
    hashKey (Id.new initState "save-button").1.internal ≠
      hashKey
        (Id.new (Id.new initState "save-button").2 "save-button").1.internal) :=
  ⟨by decide, new_custom_twice_amended initState "save-button" (by decide)⟩

/-- C3 (counterexample): `Unique(1)` is domain-equivalent to
`Custom(1, "x")`, yet the set `Set([Unique(1)])` is NOT domain-equivalent
to `Custom(1, "x")` in either order — the membership test uses structural
`==`, not the recursive domain relation. -/
theorem set_member_domain_counterexample :
    idEq (.Unique 1) (.Custom 1 "x") = true ∧
    idEq (.Set [.Unique 1]) (.Custom 1 "x") = false ∧
    idEq (.Custom 1 "x") (.Set [.Unique 1]) = false := by
  decide

/-- C3 (amended): for a `Set` and a non-`Set` value (either order), `IdEq`
holds iff some member of the set is STRUCTURALLY equal (`PartialEq`) to the
other value. -/
theorem set_vs_nonset_structural (l : List Internal) (v : Internal)
    (h : isSet v = false) :
    idEq (.Set l) v = l.any (fun m => peq m v) ∧
    idEq v (.Set l) = l.any (fun m => peq m v) := by
  cases v with
  | Unique n => exact ⟨rfl, rfl⟩
  | Custom n s => exact ⟨rfl, rfl⟩
  | Set ids => simp [isSet] at h

/-- Witness for the amended C3 at a concrete set and non-set value. -/
theorem set_vs_nonset_structural_witness :
    isSet (.Unique 2) = false ∧
    (idEq (.Set [.Unique 1]) (.Unique 2)
        = [Internal.Unique 1].any (fun m => peq m (.Unique 2)) ∧
      idEq (.Unique 2) (.Set [.Unique 1])
        = [Internal.Unique 1].any (fun m => peq m (.Unique 2))) :=
  ⟨rfl, set_vs_nonset_structural [.Unique 1] (.Unique 2) rfl⟩

/-- C4 (counterexample): converting the `Unique` identifier with sequence
number 0 — constructible via `From<u64>` — does not succeed: it panics at
the `NonZeroU128::try_from(..).unwrap()`, a failure mode beyond the `Set`
panic. -/
theorem to_scalar_zero_counterexample :
    toNonZeroU128 (Id.fromU64 0) = .error .unwrapPanic := rfl

/-- C4 (amended): the scalar conversion emits the sequence number for
every `Unique` and `Custom` whose sequence number is nonzero, panics for
every `Set`, and additionally panics at the unwrap when the sequence
number is 0. -/
theorem to_scalar_amended (n : Nat) (name : String)
    (members : List Internal) (hn : 0 < n) :
    toNonZeroU128 ⟨.Unique n⟩ = .ok n ∧
    toNonZeroU128 ⟨.Custom n name⟩ = .ok n ∧
    toNonZeroU128 ⟨.Set members⟩ = .error .setPanic ∧
    toNonZeroU128 (Id.fromU64 0) = .error .unwrapPanic := by
  have hne : n ≠ 0 := by omega
  refine ⟨?_, ?_, rfl, rfl⟩ <;> simp [toNonZeroU128, hne]

/-- Witness for the amended C4 at sequence number 7. -/
theorem to_scalar_amended_witness :
    0 < 7 ∧
    (toNonZeroU128 ⟨.Unique 7⟩ = .ok 7 ∧
    toNonZeroU128 ⟨.Custom 7 "a"⟩ = .ok 7 ∧
    toNonZeroU128 ⟨.Set []⟩ = .error .setPanic ∧
    toNonZeroU128 (Id.fromU64 0) = .error .unwrapPanic) :=
  ⟨by decide, to_scalar_amended 7 "a" [] (by decide)⟩

/-- C10: `From<u64>` wraps its argument as a `Unique` without consulting
the allocator, so sequence number 0 is constructible at the public
interface; converting it (or a `Custom` with sequence number 0) panics at
the unwrap, and the conversion succeeds exactly when the sequence number
is nonzero. -/
theorem fromU64_zero_unwrap_panics (v : Nat) (name : String) (hv : v ≠ 0) :
    Id.fromU64 0 = ⟨.Unique 0⟩ ∧
    toNonZeroU128 (Id.fromU64 0) = .error .unwrapPanic ∧
    toNonZeroU128 ⟨.Custom 0 name⟩ = .error .unwrapPanic ∧
    toNonZeroU128 (Id.fromU64 v) = .ok v ∧
    toNonZeroU128 ⟨.Custom v name⟩ = .ok v := by
  refine ⟨rfl, rfl, rfl, ?_, ?_⟩ <;> simp [Id.fromU64, toNonZeroU128, hv]

/-- Witness for C10 at the concrete value 5. -/
theorem fromU64_zero_unwrap_panics_witness :
    (5 : Nat) ≠ 0 ∧
    (Id.fromU64 0 = ⟨.Unique 0⟩ ∧
    toNonZeroU128 (Id.fromU64 0) = .error .unwrapPanic ∧
    toNonZeroU128 ⟨.Custom 0 "n"⟩ = .error .unwrapPanic ∧
    toNonZeroU128 (Id.fromU64 5) = .ok 5 ∧
    toNonZeroU128 ⟨.Custom 5 "n"⟩ = .ok 5) :=
  ⟨by decide, fromU64_zero_unwrap_panics 5 "n" (by decide)⟩

/-- Any run of general-namespace allocations advances `NEXT_ID` by the
number of allocations (wrapping at `2^64`) and never touches
`NEXT_WINDOW_ID`. -/
theorem runOps_counter (ops : List AllocOp) (s : CounterState)
    (hs : s.nextId < 2 ^ 64) :
    (runOps ops s).2.nextId = (s.nextId + ops.length) % 2 ^ 64 ∧
    (runOps ops s).2.nextWindowId = s.nextWindowId := by
  induction ops generalizing s with
  | nil =>
    simpa [runOps] using (Nat.mod_eq_of_lt hs).symm
  | cons op ops ih =>
    have h2 : (s.nextId + 1) % 2 ^ 64 < 2 ^ 64 := Nat.mod_lt _ (by decide)
    have hrec := ih ⟨(s.nextId + 1) % 2 ^ 64, s.nextWindowId⟩ h2
    simp only at hrec
    cases op with
    | uniqueOp =>
      simp only [runOps, Id.unique, nextSeq, List.length_cons, hrec.1, hrec.2]
      exact ⟨by omega, trivial⟩
    | customOp name =>
      simp only [runOps, Id.new, nextSeq, List.length_cons, hrec.1, hrec.2]
      exact ⟨by omega, trivial⟩

/-- Characterisation of `n` successive `Id::unique()` calls: the `i`-th
identifier wraps the sequence number `(c + i) % 2^64`, where `c` is the
counter value at the start. -/
theorem uniqueRun_eq (n : Nat) (c w : Nat) (hc : c < 2 ^ 64) :
    uniqueRun n ⟨c, w⟩
      = (List.range n).map (fun i => ⟨.Unique ((c + i) % 2 ^ 64)⟩) := by
  induction n generalizing c with
  | zero => rfl
  | succ m ih =>
    have h2 : (c + 1) % 2 ^ 64 < 2 ^ 64 := Nat.mod_lt _ (by decide)
    rw [show uniqueRun (m + 1) ⟨c, w⟩
        = ⟨.Unique c⟩ :: uniqueRun m ⟨(c + 1) % 2 ^ 64, w⟩ from rfl,
      ih ((c + 1) % 2 ^ 64) h2, List.range_succ_eq_map, List.map_cons,
      List.map_map]
    congr 1
    · congr 2
      omega
    · congr 1
      funext i
      congr 2
      omega

/-- The identifiers of a `unique()` run are pairwise structurally distinct
as long as the counter does not wrap during the run. -/
theorem uniqueRun_pairwise (s : CounterState) (n : Nat)
    (h1 : s.nextId + n ≤ 2 ^ 64) :
    ((uniqueRun n s).map Id.internal).Pairwise
      (fun x y => peq x y = false) := by
  rcases s with ⟨c, w⟩
  simp only at h1
  rcases n with _ | m
  · exact List.Pairwise.nil
  · have hc : c < 2 ^ 64 := by omega
    rw [uniqueRun_eq (m + 1) c w hc, List.map_map, List.pairwise_map]
    refine List.Pairwise.imp_of_mem ?_ (List.pairwise_lt_range (m + 1))
    intro a b ha hb hab
    have ha' : a < m + 1 := List.mem_range.mp ha
    have hb' : b < m + 1 := List.mem_range.mp hb
    show peq (.Unique ((c + a) % 2 ^ 64)) (.Unique ((c + b) % 2 ^ 64)) = false
    simp only [peq, beq_eq_false_iff_ne, ne_eq]
    omega

/-- C5: within one process lifetime (starting from the fresh counters),
after any prior general-namespace allocations and with no reset, if the
total number of allocations stays below `2^64` then `N` calls of
`Id::unique()` produce `N` pairwise structurally-distinct identifiers. -/
theorem unique_calls_pairwise_distinct (ops : List AllocOp) (N : Nat)
    (h : ops.length + N < 2 ^ 64) :
    ((uniqueRun N (runOps ops initState).2).map Id.internal).Pairwise
      (fun x y => peq x y = false) := by
  apply uniqueRun_pairwise
  have hc := (runOps_counter ops initState (by decide)).1
  rw [hc]
  simp only [initState]
  omega

/-- Witness for C5: one custom allocation followed by two unique calls. -/
theorem unique_calls_pairwise_distinct_witness :
    [AllocOp.customOp "x"].length + 2 < 2 ^ 64 ∧
    ((uniqueRun 2 (runOps [AllocOp.customOp "x"] initState).2).map
      Id.internal).Pairwise (fun x y => peq x y = false) :=
  ⟨by decide,
    unique_calls_pairwise_distinct [AllocOp.customOp "x"] 2 (by decide)⟩

/-- The stream of `window_node_id()` values depends only on the window
counter, not on the general counter. -/
theorem windowRun_congr (n : Nat) (c c' w : Nat) :
    windowRun n ⟨c, w⟩ = windowRun n ⟨c', w⟩ := by
  induction n generalizing w with
  | zero => rfl
  | succ m ih =>
    show ((2 ^ 64 - 1) + w) :: windowRun m ⟨c, (w + 1) % 2 ^ 64⟩
        = ((2 ^ 64 - 1) + w) :: windowRun m ⟨c', (w + 1) % 2 ^ 64⟩
    exact congrArg _ (ih _)

/-- C9: `reset()` stores 1 into `NEXT_ID` only — for every prior state of
the two counters, the window counter is unchanged and the stream of
`window_node_id()` values is unaffected. -/
theorem reset_preserves_window_counter (s : CounterState) (n : Nat) :
    (reset s).nextWindowId = s.nextWindowId ∧
    windowRun n (reset s) = windowRun n s := by
  rcases s with ⟨c, w⟩
  exact ⟨rfl, windowRun_congr n 1 c w⟩

/-- Characterisation of `n` successive `window_node_id()` calls: the
`j`-th handle is `(2^64 - 1) + ((w + j) % 2^64)`, where `w` is the window
counter value at the start. -/
theorem windowRun_eq (n c w : Nat) (hw : w < 2 ^ 64) :
    windowRun n ⟨c, w⟩
      = (List.range n).map (fun j => (2 ^ 64 - 1) + (w + j) % 2 ^ 64) := by
  induction n generalizing w with
  | zero => rfl
  | succ m ih =>
    have h2 : (w + 1) % 2 ^ 64 < 2 ^ 64 := Nat.mod_lt _ (by decide)
    rw [show windowRun (m + 1) ⟨c, w⟩
        = ((2 ^ 64 - 1) + w) :: windowRun m ⟨c, (w + 1) % 2 ^ 64⟩ from rfl,
      ih ((w + 1) % 2 ^ 64) h2, List.range_succ_eq_map, List.map_cons,
      List.map_map]
    congr 1
    · congr 1
      omega
    · congr 1
      funext j
      congr 1
      omega

/-- From a fresh process, the `j`-th `window_node_id()` handle is
`windowHandleAt j`. -/
theorem windowRun_handleAt (n j : Nat) (hj : j < n) :
    (windowRun n initState)[j]? = some (windowHandleAt j) := by
  rw [show (initState : CounterState) = ⟨1, 1⟩ from rfl,
    windowRun_eq n 1 1 (by decide), List.getElem?_map,
    List.getElem?_range hj]
  rfl

/-- From a fresh process, the `j`-th `Id::unique()` call wraps the
sequence number `generalSeqAt j`. -/
theorem uniqueRun_seqAt (n j : Nat) (hj : j < n) :
    (uniqueRun n initState)[j]? = some ⟨.Unique (generalSeqAt j)⟩ := by
  rw [show (initState : CounterState) = ⟨1, 1⟩ from rfl,
    uniqueRun_eq n 1 1 (by decide), List.getElem?_map,
    List.getElem?_range hj]
  rfl

/-- C6 (counterexample): after `2^64` window allocations the window
counter has wrapped to 0, so the `(2^64 - 1)`-indexed handle is
`u64::MAX = 2^64 - 1` — numerically equal to the sequence number handed
out by the `(2^64 - 2)`-indexed general allocation. -/
theorem window_handle_collision :
    (windowRun (2 ^ 64) initState)[2 ^ 64 - 1]?
      = some (windowHandleAt (2 ^ 64 - 1)) ∧
    (uniqueRun (2 ^ 64 - 1) initState)[2 ^ 64 - 2]?
      = some ⟨.Unique (generalSeqAt (2 ^ 64 - 2))⟩ ∧
    windowHandleAt (2 ^ 64 - 1) = generalSeqAt (2 ^ 64 - 2) := by
  refine ⟨windowRun_handleAt _ _ (by decide),
    uniqueRun_seqAt _ _ (by decide), by decide⟩

/-- C6 (amended): every `window_node_id()` handle is nonzero, and as long
as the window counter has not wrapped (the first `2^64 - 1` window
allocations) the handle exceeds `u64::MAX` and therefore never equals any
general-namespace sequence number cast into the 128-bit space. -/
theorem window_handle_nonzero_disjoint (i j k : Nat)
    (hj : j + 1 < 2 ^ 64) :
    0 < windowHandleAt i ∧ windowHandleAt j ≠ generalSeqAt k := by
  constructor
  · have : (1 + i) % 2 ^ 64 < 2 ^ 64 := Nat.mod_lt _ (by decide)
    simp only [windowHandleAt]
    omega
  · simp only [windowHandleAt, generalSeqAt]
    have hk : (1 + k) % 2 ^ 64 < 2 ^ 64 := Nat.mod_lt _ (by decide)
    omega

/-- Witness for the amended C6, including a wrapped nonzero index. -/
theorem window_handle_nonzero_disjoint_witness :
    0 + 1 < 2 ^ 64 ∧
    (0 < windowHandleAt (2 ^ 64) ∧ windowHandleAt 0 ≠ generalSeqAt 5) :=
  ⟨by decide, window_handle_nonzero_disjoint (2 ^ 64) 0 5 (by decide)⟩

end IcedId
